import Mathlib

set_option maxRecDepth 4000

/-!
Verification development for the disaster-recovery-agent repository.

The repository ships three Step Functions workflow definitions
(src/step-functions/natural-disaster.json and two further definitions) plus
CDK wiring (StepFunctionsStack) that builds the same natural-disaster
workflow programmatically.  The orchestration engine that executes these
definitions (state-machine interpreter, retry/catch policy engine, branch
coordinator, validator) is not part of src/; it is modelled here from the
specification, while the workflow definitions themselves are embedded
directly from the JSON and TypeScript sources.
-/

abbrev StateName := String
abbrev ErrorId := String

/-- Exact time arithmetic for delays, durations and clocks: rational
numbers kept as unreduced fractions with a positive denominator, so that
every operation is a plain computation.  Every value built here has a
positive denominator, which makes the ordering below the rational order. -/
structure Time where
  num : Int
  den : Nat
deriving DecidableEq

instance : OfNat Time n := ⟨⟨n, 1⟩⟩

def Time.add (a b : Time) : Time :=
  ⟨a.num * (b.den : Int) + b.num * (a.den : Int), a.den * b.den⟩

instance : Add Time := ⟨Time.add⟩

def Time.mul (a b : Time) : Time := ⟨a.num * b.num, a.den * b.den⟩

instance : Mul Time := ⟨Time.mul⟩

def Time.pow (t : Time) : Nat → Time
  | 0 => ⟨1, 1⟩
  | n + 1 => (Time.pow t n).mul t

instance : LT Time := ⟨fun a b => a.num * (b.den : Int) < b.num * (a.den : Int)⟩

instance (a b : Time) : Decidable (a < b) := Int.decLt _ _

def Time.max (a b : Time) : Time := if a < b then b else a

def Time.min (a b : Time) : Time := if a < b then a else b

/-- The literal `1.5` (the BackoffRate used throughout the repository's
workflow definitions) as an exact fraction. -/
def threeHalves : Time := ⟨3, 2⟩

/-- Modelled from the spec (section 3): JSON-like payload values flowing
through the workflow graph.  Objects are association lists of fields. -/
inductive Json where
  | null
  | str (s : String)
  | num (q : Time)
  | bool (b : Bool)
  | arr (elems : List Json)
  | obj (fields : List (String × Json))

/-- Modelled from the spec (section 3): retry policy of a Task or Parallel
state, matching the JSON `Retry` entries
`{ErrorEquals, IntervalSeconds, MaxAttempts, BackoffRate}`. -/
structure RetryPolicy where
  errorEquals : List String
  intervalSeconds : Time
  maxAttempts : Nat
  backoffRate : Time
deriving DecidableEq

/-- Modelled from the spec (section 3): catch policy of a Task or Parallel
state, matching the JSON `Catch` entries `{ErrorEquals, ResultPath, Next}`. -/
structure CatchPolicy where
  errorEquals : List String
  resultPath : String
  next : StateName
deriving DecidableEq

/-- Modelled from the spec (section 3): the tagged union of state variants.
A Parallel branch is a sub-definition: its start state name paired with its
own state mapping. -/
inductive StateSpec where
  | task (resource : String) (next : Option StateName)
      (retriers : List RetryPolicy) (catchers : List CatchPolicy)
  | parallel (branches : List (StateName × List (StateName × StateSpec)))
      (next : Option StateName)
      (retriers : List RetryPolicy) (catchers : List CatchPolicy)
  | pass (result : Option Json) (next : Option StateName)
  | succeed
  | fail (message : String)

abbrev Branch := StateName × List (StateName × StateSpec)

/-- Modelled from the spec (section 3): a workflow definition is a start
state plus a mapping from state names to state specifications. -/
structure WorkflowDefinition where
  startAt : StateName
  states : List (StateName × StateSpec)

def lookupState (states : List (StateName × StateSpec)) (n : StateName) :
    Option StateSpec :=
  (states.find? (fun p => p.1 == n)).map (fun p => p.2)

/-- Modelled from the spec (section 3): audit event kinds. -/
inductive EventKind where
  | entered
  | retried
  | caught
  | branched
  | joined
  | exited
deriving DecidableEq

/-- Modelled from the spec (section 3): a history event.  The detail is
modelled as the backoff delay (for RETRIED) and the error identifier (for
RETRIED/CAUGHT). -/
structure Event where
  stateName : StateName
  kind : EventKind
  delay : Time
  errorId : Option ErrorId
deriving DecidableEq

/-- Modelled from the spec (section 3): execution statuses. -/
inductive Status where
  | running
  | succeeded
  | failed
  | timedOut
  | cancelled
deriving DecidableEq

/-- Result of driving a (sub-)execution to completion: final status, final
payload, accumulated ordered history, wall-clock value, and the error
information of a FAILED execution. -/
structure RunResult where
  status : Status
  payload : Json
  history : List Event
  clock : Time
  errorInfo : Option (ErrorId × String)

def defaultRun : RunResult := ⟨.running, .null, [], 0, none⟩

/-- Modelled from the spec (section 6): outcome of one Task Invoker call.
`hang` models an invocation that never completes. -/
inductive TaskOutcome where
  | ok (result : Json) (dur : Time)
  | err (errorId : ErrorId) (cause : String) (dur : Time)
  | hang

/-- Modelled from the spec (section 6): the Task Invoker Port, keyed by the
resource string and the 1-based attempt number of the current state entry. -/
abbrev Handlers := String → Nat → TaskOutcome

/-- Modelled from the spec (section 4.2): an error matcher list matches an
error identifier if some member equals it or is the wildcard. -/
def matchesError (matchers : List String) (e : ErrorId) : Bool :=
  matchers.any (fun m => m == "States.ALL" || m == e)

/-- Modelled from the spec (section 4.2): a retrier applies to an error when
its matchers match and its per-state-entry attempt count is below
maxAttempts. -/
def applicableRetry (r : RetryPolicy) (count : Nat) (e : ErrorId) : Bool :=
  matchesError r.errorEquals e && decide (count < r.maxAttempts)

/-- Modelled from the spec (section 4.2): the delay before the next retry,
`intervalSeconds * backoffRate ^ (attemptNumber - 1)` where the retrier has
already served `priorRetries` retries. -/
def retryDelay (r : RetryPolicy) (priorRetries : Nat) : Time :=
  r.intervalSeconds * Time.pow r.backoffRate priorRetries

/-- First applicable retrier: scan retriers (paired with their counts) in
declared order, returning the index, policy and current count of the first
one that applies. -/
def findRetry : List RetryPolicy → List Nat → ErrorId →
    Option (Nat × RetryPolicy × Nat)
  | [], _, _ => none
  | _ :: _, [], _ => none
  | r :: rs, c :: cs, e =>
      if applicableRetry r c e then some (0, r, c)
      else (findRetry rs cs e).map (fun p => (p.1 + 1, p.2))

/-- First matching catcher in declared order. -/
def findCatcher (cs : List CatchPolicy) (e : ErrorId) : Option CatchPolicy :=
  cs.find? (fun c => matchesError c.errorEquals e)

/-- Modelled from the spec (section 4.2): the action computed by the
Retry/Catch Policy Engine for a failed attempt. -/
inductive PolicyDecision where
  | retry (idx : Nat) (delay : Time)
  | catchTo (resultPath : String) (next : StateName)
  | propagate
deriving DecidableEq

/-- Modelled from the spec (section 4.2): retriers are scanned first in
declared order, then catchers in declared order, otherwise the error
propagates. -/
def decidePolicy (rs : List RetryPolicy) (cs : List CatchPolicy)
    (counts : List Nat) (e : ErrorId) : PolicyDecision :=
  match findRetry rs counts e with
  | some (i, r, c) => .retry i (retryDelay r c)
  | none =>
      match findCatcher cs e with
      | some c => .catchTo c.resultPath c.next
      | none => .propagate

/-- Increment the attempt count of the retrier at the given index. -/
def bump : List Nat → Nat → List Nat
  | [], _ => []
  | c :: cs, 0 => (c + 1) :: cs
  | c :: cs, i + 1 => c :: bump cs i

/-- Set (or append) a field of an association list of JSON fields. -/
def setField (fields : List (String × Json)) (name : String) (v : Json) :
    List (String × Json) :=
  match fields with
  | [] => [(name, v)]
  | (k, w) :: rest =>
      if k == name then (k, v) :: rest else (k, w) :: setField rest name v

/-- A result path of the form `$.field` designates the field after the
leading two characters. -/
def pathField (resultPath : String) : String := resultPath.drop 2

/-- Modelled from the spec (section 4.2): merge a value into the payload at
the given result path.  A non-object payload is replaced by a fresh object. -/
def mergeAtPath (resultPath : String) (v : Json) (payload : Json) : Json :=
  match payload with
  | .obj fields => .obj (setField fields (pathField resultPath) v)
  | _ => .obj [(pathField resultPath, v)]

/-- Modelled from the spec (section 4.2): the error detail merged into the
payload by a catch, `{error: errorIdentifier, cause: detail}`. -/
def errorDetail (e : ErrorId) (cause : String) : Json :=
  .obj [("error", .str e), ("cause", .str cause)]

/-- Read a field of a JSON object. -/
def getField (j : Json) (name : String) : Option Json :=
  match j with
  | .obj fields => (fields.find? (fun p => p.1 == name)).map (fun p => p.2)
  | _ => none

/-- Outcome of processing one Task-style unit (a Task state or one attempt
round of a Parallel state) within a state entry. -/
inductive TaskStep where
  | ok (payload : Json) (hist : List Event) (clock : Time)
  | goto (next : StateName) (payload : Json) (hist : List Event) (clock : Time)
  | failedWith (e : ErrorId) (cause : String) (hist : List Event) (clock : Time)
  | timedOut (hist : List Event) (clock : Time)
  | outOfFuel (hist : List Event) (clock : Time)

/-- Modelled from the spec (sections 4.2, 4.3, 5): drive the attempt loop of
one Task state entry.  Attempt counts start at zero per state entry; the
deadline is checked at every suspension point (awaiting the invocation,
awaiting the backoff delay); a hanging invocation is overtaken by the
deadline. -/
def runTask (h : Handlers) (deadline : Time) (name resource : String)
    (rs : List RetryPolicy) (cs : List CatchPolicy) :
    Json → List Event → Time → List Nat → Nat → Nat → TaskStep
  | _, hist, clock, _, _, 0 => .outOfFuel hist clock
  | payload, hist, clock, counts, attempt, fuel + 1 =>
      match h resource attempt with
      | .hang => .timedOut hist deadline
      | .ok r _dur =>
          if deadline < clock + _dur then .timedOut hist deadline
          else .ok r (hist ++ [⟨name, .exited, 0, none⟩]) (clock + _dur)
      | .err e cause dur =>
          if deadline < clock + dur then .timedOut hist deadline
          else
            match decidePolicy rs cs counts e with
            | .retry i d =>
                if deadline < clock + dur + d then
                  .timedOut (hist ++ [⟨name, .retried, d, some e⟩]) deadline
                else
                  runTask h deadline name resource rs cs payload
                    (hist ++ [⟨name, .retried, d, some e⟩])
                    (clock + dur + d) (bump counts i) (attempt + 1) fuel
            | .catchTo path nxt =>
                .goto nxt (mergeAtPath path (errorDetail e cause) payload)
                  (hist ++ [⟨name, .caught, 0, some e⟩]) (clock + dur)
            | .propagate => .failedWith e cause hist (clock + dur)

/-- Modelled from the spec (section 4.4): the Branch Coordinator's verdict
after all branches reached a terminal state.  `branchTimedOut` and
`branchFailed` carry the declaration indices of the sibling branches that
were cancelled by the cascade. -/
inductive JoinOutcome where
  | incomplete
  | allSucceeded (outputs : List Json) (joinClock : Time)
  | branchTimedOut (cancelled : List Nat)
  | branchFailed (failIdx : Nat) (e : ErrorId) (cause : String)
      (failClock : Time) (cancelled : List Nat)

/-- First element satisfying a predicate, with its index. -/
def firstWith (p : RunResult → Bool) : List RunResult → Option (Nat × RunResult)
  | [] => none
  | r :: rest =>
      if p r then some (0, r)
      else (firstWith p rest).map (fun q => (q.1 + 1, q.2))

/-- Indices of all elements satisfying a predicate. -/
def idxWhere (p : RunResult → Bool) : List RunResult → List Nat
  | [] => []
  | r :: rest =>
      (if p r then [0] else []) ++ (idxWhere p rest).map (fun i => i + 1)

/-- The wall-clock time of the earliest branch failure. -/
def failClockOf (rl : List RunResult) : Time :=
  match (rl.filter (fun r => decide (r.status = .failed))).map
      (fun r => r.clock) with
  | [] => 0
  | x :: xs => xs.foldl Time.min x

/-- Modelled from the spec (sections 4.4, 5): join the declaration-ordered
branch results.  All branches succeeding joins their outputs in declaration
order; a deadline overrun anywhere turns into a timeout with the overtaken
branches cancelled; otherwise the first failing branch in declaration order
is reported and every sibling still in flight at the first failure time is
cancelled. -/
def analyzeResults (forkClock : Time) (rl : List RunResult) : JoinOutcome :=
  if rl.any (fun r => decide (r.status = .running)) then .incomplete
  else if rl.any (fun r => decide (r.status = .timedOut)) then
    .branchTimedOut (idxWhere (fun r => decide (r.status = .timedOut)) rl)
  else
    match firstWith (fun r => decide (r.status = .failed)) rl with
    | some (fi, fr) =>
        .branchFailed fi
          ((fr.errorInfo.getD ("States.BranchFailed", "branch failed")).1)
          ((fr.errorInfo.getD ("States.BranchFailed", "branch failed")).2)
          (failClockOf rl)
          (idxWhere
            (fun r =>
              decide (r.status ≠ .failed) && decide (failClockOf rl < r.clock))
            rl)
    | none =>
        .allSucceeded (rl.map (fun r => r.payload))
          (rl.foldl (fun acc r => Time.max acc r.clock) forkClock)

/-- The declaration-ordered result of the branch at each index of the
coordinator's completion list (default result if a branch is missing). -/
def resultAt (completed : List (Nat × RunResult)) (i : Nat) : RunResult :=
  ((completed.find? (fun p => p.1 == i)).map (fun p => p.2)).getD defaultRun

/-- Join a completion-ordered list of indexed branch results over `n`
declared branches. -/
def analyzeJoin (forkClock : Time) (n : Nat)
    (completed : List (Nat × RunResult)) : JoinOutcome :=
  analyzeResults forkClock ((List.range n).map (fun i => resultAt completed i))

/-- Work items of the interpreter: driving a workflow from a state, or
driving the attempt loop of a Parallel state. -/
inductive Job where
  | run (states : List (StateName × StateSpec)) (current : StateName)
      (payload : Json) (hist : List Event) (clock : Time)
  | par (name : StateName) (branches : List Branch)
      (rs : List RetryPolicy) (cs : List CatchPolicy)
      (payload : Json) (hist : List Event) (clock : Time) (counts : List Nat)

/-- Results of interpreter work items. -/
inductive Out where
  | run (r : RunResult)
  | par (s : TaskStep)

def Out.asRun : Out → RunResult
  | .run r => r
  | _ => defaultRun

def Out.asPar : Out → TaskStep
  | .par s => s
  | _ => .outOfFuel [] 0

/-- Result of a work item when the fuel is exhausted. -/
def interpBase : Job → Out
  | .run _ _ payload hist clock => .run ⟨.running, payload, hist, clock, none⟩
  | .par _ _ _ _ _ hist clock _ => .par (.outOfFuel hist clock)

/-- Modelled from the spec (sections 4.3, 4.4): one layer of the State
Machine Interpreter, with `prev` the interpreter at the remaining fuel.  A
`run` job walks the graph from the current state, appending an ENTERED
event per transition; Task states run their attempt loop through
`runTask`; Parallel states fork every declared branch on a fresh copy of
the payload (each branch an independent sub-execution with its own
history), join deterministically through `analyzeJoin`, and feed a branch
failure to the Parallel state's own retry/catch policy. -/
def interpStep (h : Handlers) (deadline : Time)
    (ordFn : StateName → Nat → List Nat) (fuel : Nat) (prev : Job → Out) :
    Job → Out
  | .run states current payload hist clock =>
      match lookupState states current with
      | none =>
          .run ⟨.failed, payload, hist ++ [⟨current, .entered, 0, none⟩], clock,
            some ("States.StateNotFound", current)⟩
      | some (.pass result next) =>
          match next with
          | none =>
              .run ⟨.succeeded, result.getD payload,
                hist ++ [⟨current, .entered, 0, none⟩] ++ [⟨current, .exited, 0, none⟩],
                clock, none⟩
          | some n =>
              prev (.run states n (result.getD payload)
                (hist ++ [⟨current, .entered, 0, none⟩] ++ [⟨current, .exited, 0, none⟩])
                clock)
      | some .succeed =>
          .run ⟨.succeeded, payload,
            hist ++ [⟨current, .entered, 0, none⟩] ++ [⟨current, .exited, 0, none⟩],
            clock, none⟩
      | some (.fail msg) =>
          .run ⟨.failed, payload,
            hist ++ [⟨current, .entered, 0, none⟩] ++ [⟨current, .exited, 0, none⟩],
            clock, some ("States.Failed", msg)⟩
      | some (.task resource next rs cs) =>
          match runTask h deadline current resource rs cs payload
              (hist ++ [⟨current, .entered, 0, none⟩]) clock
              (rs.map (fun _ => 0)) 1 fuel with
          | .ok p hist' c =>
              match next with
              | none => .run ⟨.succeeded, p, hist', c, none⟩
              | some n => prev (.run states n p hist' c)
          | .goto nxt p hist' c =>
              prev (.run states nxt p hist' c)
          | .failedWith e cause hist' c =>
              .run ⟨.failed, payload, hist', c, some (e, cause)⟩
          | .timedOut hist' c => .run ⟨.timedOut, payload, hist', c, none⟩
          | .outOfFuel hist' c => .run ⟨.running, payload, hist', c, none⟩
      | some (.parallel branches next rs cs) =>
          match (prev (.par current branches rs cs payload
              (hist ++ [⟨current, .entered, 0, none⟩]) clock
              (rs.map (fun _ => 0)))).asPar with
          | .ok p hist' c =>
              match next with
              | none => .run ⟨.succeeded, p, hist', c, none⟩
              | some n => prev (.run states n p hist' c)
          | .goto nxt p hist' c =>
              prev (.run states nxt p hist' c)
          | .failedWith e cause hist' c =>
              .run ⟨.failed, payload, hist', c, some (e, cause)⟩
          | .timedOut hist' c => .run ⟨.timedOut, payload, hist', c, none⟩
          | .outOfFuel hist' c => .run ⟨.running, payload, hist', c, none⟩
  | .par name branches rs cs payload hist clock counts =>
      let completed := (ordFn name branches.length).filterMap
        (fun i => (branches[i]?).map
          (fun b => (i, (prev (.run b.2 b.1 payload [] clock)).asRun)))
      let hist' := hist ++ [⟨name, .branched, 0, none⟩]
        ++ (completed.map (fun p => p.2.history)).flatten
      match analyzeJoin clock branches.length completed with
      | .incomplete => .par (.outOfFuel hist' clock)
      | .allSucceeded outputs joinClock =>
          .par (.ok (.arr outputs) (hist' ++ [⟨name, .joined, 0, none⟩]) joinClock)
      | .branchTimedOut _ => .par (.timedOut hist' deadline)
      | .branchFailed _ e cause failClock _ =>
          match decidePolicy rs cs counts e with
          | .retry i d =>
              if deadline < failClock + d then
                .par (.timedOut (hist' ++ [⟨name, .retried, d, some e⟩]) deadline)
              else
                prev (.par name branches rs cs payload
                  (hist' ++ [⟨name, .retried, d, some e⟩]) (failClock + d)
                  (bump counts i))
          | .catchTo path nxt =>
              .par (.goto nxt (mergeAtPath path (errorDetail e cause) payload)
                (hist' ++ [⟨name, .caught, 0, some e⟩]) failClock)
          | .propagate => .par (.failedWith e cause hist' failClock)

/-- The fuelled State Machine Interpreter: iterate `interpStep` down to the
fuel-exhaustion base case. -/
def interp (h : Handlers) (deadline : Time)
    (ordFn : StateName → Nat → List Nat) : Nat → Job → Out
  | 0 => interpBase
  | fuel + 1 => interpStep h deadline ordFn (fuel + 1) (interp h deadline ordFn fuel)

/-- Drive a workflow fragment from a named state to a terminal status. -/
def runFrom (h : Handlers) (deadline : Time)
    (ordFn : StateName → Nat → List Nat)
    (states : List (StateName × StateSpec)) (current : StateName)
    (payload : Json) (hist : List Event) (clock : Time) (fuel : Nat) :
    RunResult :=
  (interp h deadline ordFn fuel (.run states current payload hist clock)).asRun

/-- Run one branch as an independent child execution: same input payload,
fresh history, same fork clock. -/
def branchRun (h : Handlers) (deadline : Time)
    (ordFn : StateName → Nat → List Nat) (b : Branch)
    (payload : Json) (clock : Time) (fuel : Nat) : RunResult :=
  runFrom h deadline ordFn b.2 b.1 payload [] clock fuel

/-- Modelled from the spec (section 4.4): the Branch Coordinator's fork.
The completion order is an arbitrary sequence of declaration indices; each
branch is driven independently of its siblings. -/
def runBranches (h : Handlers) (deadline : Time)
    (ordFn : StateName → Nat → List Nat) (branches : List Branch)
    (order : List Nat) (payload : Json) (clock : Time) (fuel : Nat) :
    List (Nat × RunResult) :=
  order.filterMap
    (fun i => (branches[i]?).map
      (fun b => (i, branchRun h deadline ordFn b payload clock fuel)))

/-- Completion order used when none is imposed: declaration order. -/
def declOrd : StateName → Nat → List Nat := fun _ n => List.range n

/-- Modelled from the spec (sections 2, 5): the default workflow timeout of
30 minutes, matching `cdk.Duration.minutes(30)` in StepFunctionsStack. -/
def defaultTimeout : Time := 1800

/-- Run a whole workflow definition from its start state at clock 0. -/
def runWorkflow (h : Handlers) (deadline : Time) (wf : WorkflowDefinition)
    (input : Json) (fuel : Nat) : RunResult :=
  runFrom h deadline declOrd wf.states wf.startAt input [] 0 fuel

/-- Modelled from the spec (section 3): an execution record as held by the
Execution Store. -/
structure Execution where
  status : Status
  currentState : StateName
  payload : Json
  history : List Event
  clock : Time
  errorInfo : Option (ErrorId × String)

/-- Modelled from the spec (section 4.3): the transition relation over
`Execution.status`.  Every transition starts from RUNNING. -/
inductive StatusStep : Status → Status → Prop where
  | intra : StatusStep .running .running
  | succeed : StatusStep .running .succeeded
  | fail : StatusStep .running .failed
  | timeout : StatusStep .running .timedOut
  | cancel : StatusStep .running .cancelled

/-- Modelled from the spec (sections 3, 4.3): the only operation of the
interpreter over a stored execution record.  A record whose status is no
longer RUNNING is never driven again. -/
def resumeExecution (h : Handlers) (deadline : Time)
    (ordFn : StateName → Nat → List Nat)
    (states : List (StateName × StateSpec)) (e : Execution) (fuel : Nat) :
    Execution :=
  if e.status = .running then
    let r := runFrom h deadline ordFn states e.currentState e.payload
      e.history e.clock fuel
    ⟨r.status, e.currentState, r.payload, r.history, r.clock, r.errorInfo⟩
  else e

/-- Embedded from src/step-functions/natural-disaster.json: the Natural
Disaster Response Workflow state mapping. -/
def naturalDisasterStates : List (StateName × StateSpec) :=
  [("AssessEmergency", .task "${EmergencyAssessmentFunctionArn}"
      (some "NotifyEmergencyTeams")
      [⟨["States.ALL"], 3, 2, threeHalves⟩]
      [⟨["States.ALL"], "$.error", "HandleError"⟩]),
   ("NotifyEmergencyTeams", .task "${NotificationFunctionArn}"
      (some "ParallelResponse")
      [⟨["States.ALL"], 2, 3, threeHalves⟩]
      [⟨["States.ALL"], "$.error", "HandleError"⟩]),
   ("ParallelResponse", .parallel
      [("CoordinateEvacuation",
        [("CoordinateEvacuation", .pass
          (some (.obj [("action", .str "evacuation"),
                       ("status", .str "completed")])) none)]),
       ("AllocateResources",
        [("AllocateResources", .task "${ResourceAllocationFunctionArn}" none
          [⟨["States.ALL"], 3, 2, threeHalves⟩]
          [⟨["States.ALL"], "$.resourceError", "ResourceAllocationFallback"⟩]),
         ("ResourceAllocationFallback", .pass
          (some (.obj [("status", .str "RESOURCE_ALLOCATION_FALLBACK"),
                       ("message", .str "Using default resource allocation due to error")]))
          none)]),
       ("AssessDamage",
        [("AssessDamage", .pass
          (some (.obj [("action", .str "damage_assessment"),
                       ("status", .str "completed")])) none)])]
      (some "GenerateSituationReport") [] []),
   ("GenerateSituationReport", .task "${ReportGenerationFunctionArn}"
      (some "UpdateEmergencyStatus")
      [⟨["States.ALL"], 3, 2, threeHalves⟩]
      [⟨["States.ALL"], "$.error", "HandleError"⟩]),
   ("UpdateEmergencyStatus", .pass
      (some (.obj [("status", .str "COMPLETED")])) none),
   ("HandleError", .pass
      (some (.obj [("status", .str "ERROR"),
                   ("message", .str "Workflow encountered an error")])) none)]

def naturalDisaster : WorkflowDefinition :=
  ⟨"AssessEmergency", naturalDisasterStates⟩

/-- Embedded from the Infrastructure Failure Response Workflow definition
(same repository, sibling JSON document of natural-disaster.json). -/
def infrastructureFailureStates : List (StateName × StateSpec) :=
  [("AssessEmergency", .task "${EmergencyAssessmentFunctionArn}"
      (some "NotifyEmergencyTeams")
      [⟨["States.ALL"], 3, 2, threeHalves⟩]
      [⟨["States.ALL"], "$.error", "HandleError"⟩]),
   ("NotifyEmergencyTeams", .task "${NotificationFunctionArn}"
      (some "ParallelResponse")
      [⟨["States.ALL"], 2, 3, threeHalves⟩]
      [⟨["States.ALL"], "$.error", "HandleError"⟩]),
   ("ParallelResponse", .parallel
      [("IsolateSystem",
        [("IsolateSystem", .pass
          (some (.obj [("action", .str "system_isolation"),
                       ("status", .str "completed")])) none)]),
       ("AllocateResources",
        [("AllocateResources", .task "${ResourceAllocationFunctionArn}" none
          [⟨["States.ALL"], 3, 2, threeHalves⟩]
          [⟨["States.ALL"], "$.resourceError", "ResourceAllocationFallback"⟩]),
         ("ResourceAllocationFallback", .pass
          (some (.obj [("status", .str "RESOURCE_ALLOCATION_FALLBACK"),
                       ("message", .str "Using default resource allocation due to error")]))
          none)]),
       ("ActivateFailover",
        [("ActivateFailover", .pass
          (some (.obj [("action", .str "failover_activation"),
                       ("status", .str "completed")])) none)])]
      (some "GenerateSituationReport") [] []),
   ("GenerateSituationReport", .task "${ReportGenerationFunctionArn}"
      (some "UpdateEmergencyStatus")
      [⟨["States.ALL"], 3, 2, threeHalves⟩]
      [⟨["States.ALL"], "$.error", "HandleError"⟩]),
   ("UpdateEmergencyStatus", .pass
      (some (.obj [("status", .str "COMPLETED")])) none),
   ("HandleError", .pass
      (some (.obj [("status", .str "ERROR"),
                   ("message", .str "Workflow encountered an error")])) none)]

def infrastructureFailure : WorkflowDefinition :=
  ⟨"AssessEmergency", infrastructureFailureStates⟩

/-- Embedded from the Security Incident Response Workflow definition (same
repository, sibling JSON document of natural-disaster.json). -/
def securityIncidentStates : List (StateName × StateSpec) :=
  [("AssessEmergency", .task "${EmergencyAssessmentFunctionArn}"
      (some "NotifyEmergencyTeams")
      [⟨["States.ALL"], 3, 2, threeHalves⟩]
      [⟨["States.ALL"], "$.error", "HandleError"⟩]),
   ("NotifyEmergencyTeams", .task "${NotificationFunctionArn}"
      (some "ParallelResponse")
      [⟨["States.ALL"], 2, 3, threeHalves⟩]
      [⟨["States.ALL"], "$.error", "HandleError"⟩]),
   ("ParallelResponse", .parallel
      [("ContainThreat",
        [("ContainThreat", .pass
          (some (.obj [("action", .str "threat_containment"),
                       ("status", .str "completed")])) none)]),
       ("AllocateResources",
        [("AllocateResources", .task "${ResourceAllocationFunctionArn}" none
          [⟨["States.ALL"], 3, 2, threeHalves⟩]
          [⟨["States.ALL"], "$.resourceError", "ResourceAllocationFallback"⟩]),
         ("ResourceAllocationFallback", .pass
          (some (.obj [("status", .str "RESOURCE_ALLOCATION_FALLBACK"),
                       ("message", .str "Using default resource allocation due to error")]))
          none)]),
       ("ProtectSystems",
        [("ProtectSystems", .pass
          (some (.obj [("action", .str "system_protection"),
                       ("status", .str "completed")])) none)])]
      (some "ForensicAnalysis") [] []),
   ("ForensicAnalysis", .pass
      (some (.obj [("action", .str "forensic_analysis"),
                   ("status", .str "completed")]))
      (some "GenerateSituationReport")),
   ("GenerateSituationReport", .task "${ReportGenerationFunctionArn}"
      (some "UpdateEmergencyStatus")
      [⟨["States.ALL"], 3, 2, threeHalves⟩]
      [⟨["States.ALL"], "$.error", "HandleError"⟩]),
   ("UpdateEmergencyStatus", .pass
      (some (.obj [("status", .str "COMPLETED")])) none),
   ("HandleError", .pass
      (some (.obj [("status", .str "ERROR"),
                   ("message", .str "Workflow encountered an error")])) none)]

def securityIncident : WorkflowDefinition :=
  ⟨"AssessEmergency", securityIncidentStates⟩

/-- The branch declaration order of a Parallel state of a state mapping. -/
def parallelBranchNames (states : List (StateName × StateSpec))
    (name : StateName) : List StateName :=
  match lookupState states name with
  | some (.parallel bs _ _ _) => bs.map (fun b => b.1)
  | _ => []

/-- Embedded from src/bin/disaster-recovery-agent.ts (StepFunctionsStack):
the branch declaration order of the CDK-built `ParallelResponse`, given by
the successive `.branch(...)` calls on `new sfn.Parallel(this,
'ParallelResponse')`: allocateResources, then AssessDamage, then
CoordinateEvacuation. -/
def cdkNaturalDisasterBranchNames : List StateName :=
  ["AllocateResources", "AssessDamage", "CoordinateEvacuation"]

/-- The static result of the HandleError Pass state shared by all three
workflow definitions. -/
def handleErrorResult : Json :=
  .obj [("status", .str "ERROR"),
        ("message", .str "Workflow encountered an error")]

/-- Modelled from the spec (section 4.1): a single validation violation.
Violations found inside a Parallel branch are wrapped with the parallel
state's name and the branch index. -/
inductive Violation where
  | missingStart (startAt : StateName)
  | danglingNext (fromState toState : StateName)
  | danglingCatch (fromState toState : StateName)
  | nonPositiveInterval (fromState : StateName)
  | badBackoff (fromState : StateName)
  | unreachable (state : StateName)
  | branchViolation (parallelState : StateName) (idx : Nat) (v : Violation)
deriving DecidableEq

/-- The `next` transition target of a state, when it has one. -/
def nextTarget (s : StateSpec) : Option StateName :=
  match s with
  | .task _ next _ _ => next
  | .parallel _ next _ _ => next
  | .pass _ next => next
  | .succeed => none
  | .fail _ => none

/-- The catcher transition targets of a state. -/
def catchTargets (s : StateSpec) : List StateName :=
  match s with
  | .task _ _ _ cs => cs.map (fun c => c.next)
  | .parallel _ _ _ cs => cs.map (fun c => c.next)
  | _ => []

/-- All transition targets of a state (used for reachability). -/
def stateTargets (s : StateSpec) : List StateName :=
  (nextTarget s).toList ++ catchTargets s

/-- Dangling `next` reference check for one state. -/
def danglingNextOf (names : List StateName) (name : StateName)
    (next : Option StateName) : List Violation :=
  match next with
  | none => []
  | some t => if names.contains t then [] else [Violation.danglingNext name t]

/-- Dangling catch-`next` reference check for one state. -/
def danglingCatchOf (names : List StateName) (name : StateName)
    (cs : List CatchPolicy) : List Violation :=
  cs.foldr
    (fun c acc =>
      (if names.contains c.next then [] else [Violation.danglingCatch name c.next])
        ++ acc) []

/-- Modelled from the spec (sections 3, 4.1): numeric policy field checks
(`intervalSeconds > 0`, `backoffRate ≥ 1`). -/
def policyViolations (name : StateName) (rs : List RetryPolicy) :
    List Violation :=
  rs.foldr
    (fun r acc =>
      (if r.intervalSeconds.num ≤ 0 then
        [Violation.nonPositiveInterval name] else [])
        ++ (if r.backoffRate < ⟨1, 1⟩ then [Violation.badBackoff name] else [])
        ++ acc) []

/-- Successor states of a named state within a state mapping. -/
def successorsOf (states : List (StateName × StateSpec)) (n : StateName) :
    List StateName :=
  match lookupState states n with
  | none => []
  | some s => stateTargets s

/-- One round of reachability expansion, iterated `k` times. -/
def reachUpTo (states : List (StateName × StateSpec)) :
    Nat → List StateName → List StateName
  | 0, acc => acc
  | k + 1, acc =>
      reachUpTo states k ((acc ++ acc.flatMap (successorsOf states)).dedup)

/-- States reachable from the start state within the state mapping. -/
def reachableStates (startAt : StateName)
    (states : List (StateName × StateSpec)) : List StateName :=
  reachUpTo states states.length [startAt]

/-- Modelled from the spec (section 4.1): unreachable-state violations. -/
def unreachableViolations (startAt : StateName)
    (states : List (StateName × StateSpec)) : List Violation :=
  (states.map Prod.fst).foldr
    (fun n acc =>
      if (reachableStates startAt states).contains n then acc
      else Violation.unreachable n :: acc) []

mutual

/-- Modelled from the spec (section 4.1): violations contributed by a
single state: dangling `next`, dangling catch targets, bad policy fields,
and, for Parallel states, the recursively validated branches. -/
def stateViolations (names : List StateName) (name : StateName) :
    StateSpec → List Violation
  | .task _ next rs cs =>
      danglingNextOf names name next ++ danglingCatchOf names name cs
        ++ policyViolations name rs
  | .parallel branches next rs cs =>
      danglingNextOf names name next ++ danglingCatchOf names name cs
        ++ policyViolations name rs ++ branchesViolations name 0 branches
  | .pass _ next => danglingNextOf names name next
  | .succeed => []
  | .fail _ => []
termination_by s => sizeOf s

/-- Violations of the branches of a Parallel state, each branch validated
as a complete sub-definition. -/
def branchesViolations (name : StateName) (idx : Nat) :
    List Branch → List Violation
  | [] => []
  | b :: rest =>
      (defViolations b.1 b.2).map (Violation.branchViolation name idx)
        ++ branchesViolations name (idx + 1) rest
termination_by bs => sizeOf bs
decreasing_by
  all_goals cases b
  all_goals simp
  all_goals omega

/-- Violations of every state of a state mapping, concatenated in
declaration order: the validator reports every violation found, not only
the first. -/
def statesViolations (names : List StateName) :
    List (StateName × StateSpec) → List Violation
  | [] => []
  | p :: rest => stateViolations names p.1 p.2 ++ statesViolations names rest
termination_by ss => sizeOf ss
decreasing_by
  all_goals cases p
  all_goals simp
  all_goals omega

/-- Modelled from the spec (section 4.1): all violations of a definition:
missing start state, per-state checks, unreachable states. -/
def defViolations (startAt : StateName)
    (states : List (StateName × StateSpec)) : List Violation :=
  (if (states.map Prod.fst).contains startAt then []
   else [Violation.missingStart startAt])
    ++ statesViolations (states.map Prod.fst) states
    ++ unreachableViolations startAt states
termination_by sizeOf states + 1

end

/-- Modelled from the spec (section 4.1): the validation error listing
every violation found. -/
structure ValidationError where
  reasons : List Violation
deriving DecidableEq

/-- Modelled from the spec (section 4.1): the Definition Validator, a pure
function from a definition to either no error or a `ValidationError`
listing every violation. -/
def validate (wf : WorkflowDefinition) : Option ValidationError :=
  match defViolations wf.startAt wf.states with
  | [] => none
  | vs => some ⟨vs⟩

/-- A handler that fails the first two attempts and succeeds on the third,
matching the retry-timing scenario of the spec (section 8). -/
def retryDemoHandler : Handlers := fun _ attempt =>
  if attempt ≤ 2 then .err "States.TaskFailed" "transient failure" 0
  else .ok (.str "assessment-complete") 0

/-- A single Task state with the retry policy
`{IntervalSeconds: 3, MaxAttempts: 2, BackoffRate: 1.5}` of
`AssessEmergency` in src/step-functions/natural-disaster.json. -/
def retryDemoStates : List (StateName × StateSpec) :=
  [("AssessEmergency", .task "${EmergencyAssessmentFunctionArn}" none
      [⟨["States.ALL"], 3, 2, threeHalves⟩] [])]

def retryDemoRun : RunResult :=
  runFrom retryDemoHandler defaultTimeout declOrd retryDemoStates
    "AssessEmergency" .null [] 0 6

/-- A handler whose every invocation fails with the same error. -/
def failingHandler : Handlers := fun _ _ =>
  .err "States.TaskFailed" "assessment failed" 0

def ndFailRun : RunResult :=
  runWorkflow failingHandler defaultTimeout naturalDisaster .null 4

def infFailRun : RunResult :=
  runWorkflow failingHandler defaultTimeout infrastructureFailure .null 4

def secFailRun : RunResult :=
  runWorkflow failingHandler defaultTimeout securityIncident .null 4

/-- Do all top-level Task states of a state mapping route every catcher to
the given target state? -/
def topCatchersTo (states : List (StateName × StateSpec))
    (target : StateName) : Bool :=
  states.all (fun p =>
    match p.2 with
    | .task _ _ _ cs => cs.all (fun c => c.next == target)
    | _ => true)

/-- A Task state with no retrier and a wildcard catcher routing to a
`Fallback` Pass state, matching the catch-routing scenario of the spec
(section 8). -/
def fallbackDemoStates : List (StateName × StateSpec) :=
  [("FragileTask", .task "fragile-resource" none []
      [⟨["States.ALL"], "$.error", "Fallback"⟩]),
   ("Fallback", .pass none none)]

/-- Three parallel branches whose middle branch fails uncaught while its
siblings succeed, matching the parallel-failure scenario of the spec
(section 8). -/
def parFailBranches : List Branch :=
  [("BranchA", [("BranchA", .pass (some (.str "alpha-result")) none)]),
   ("BranchB", [("BranchB", .task "failing-resource" none [] [])]),
   ("BranchC", [("BranchC", .pass (some (.str "charlie-result")) none)])]

def parFailStates : List (StateName × StateSpec) :=
  [("Par", .parallel parFailBranches (some "Done") [] []),
   ("Done", .pass none none)]

/-- The middle branch's task fails with a distinguished error after one
second; the sibling Pass branches complete immediately. -/
def parFailHandler : Handlers := fun _ _ =>
  .err "States.Crash" "branch b crashed" 1

def parFailRun : RunResult :=
  runFrom parFailHandler defaultTimeout declOrd parFailStates "Par" .null [] 0 3

/-- A handler whose invocations never complete. -/
def hangHandler : Handlers := fun _ _ => .hang

/-- A Parallel state with a hanging Task branch next to an immediate Pass
branch, matching the timeout scenario of the spec (section 8). -/
def hangParStates : List (StateName × StateSpec) :=
  [("Par", .parallel
      [("HangBranch", [("HangBranch", .task "hanging-resource" none [] [])]),
       ("QuickBranch", [("QuickBranch", .pass none none)])]
      none [] [])]

def hangParRun : RunResult :=
  runFrom hangHandler defaultTimeout declOrd hangParStates "Par" .null [] 0 3

/-- Three Pass branches with distinct results, for the join-ordering
scenario of the spec (section 8): declared `[A, B, C]`. -/
def joinDemoBranches : List Branch :=
  [("A", [("A", .pass (some (.str "resultA")) none)]),
   ("B", [("B", .pass (some (.str "resultB")) none)]),
   ("C", [("C", .pass (some (.str "resultC")) none)])]

lemma wildcard_matches (ms : List String) (e : ErrorId)
    (hm : "States.ALL" ∈ ms) : matchesError ms e = true := by
  simp only [matchesError, List.any_eq_true]
  exact ⟨"States.ALL", hm, by simp⟩

lemma findRetry_noMatch : ∀ (rs : List RetryPolicy) (counts : List Nat)
    (e : ErrorId), (∀ r ∈ rs, matchesError r.errorEquals e = false) →
    findRetry rs counts e = none := by
  intro rs
  induction rs with
  | nil => intro counts e _; cases counts <;> rfl
  | cons r rest ih =>
      intro counts e hno
      cases counts with
      | nil => rfl
      | cons c cs =>
          have hr : matchesError r.errorEquals e = false := hno r (by simp)
          simp [findRetry, applicableRetry, hr,
            ih cs e (fun r' hr' => hno r' (by simp [hr']))]

lemma findRetry_none : ∀ (rs : List RetryPolicy) (counts : List Nat)
    (e : ErrorId),
    (∀ (j : Nat) (r' : RetryPolicy) (c' : Nat),
      rs[j]? = some r' → counts[j]? = some c' →
      applicableRetry r' c' e = false) →
    findRetry rs counts e = none := by
  intro rs
  induction rs with
  | nil => intro counts e _; cases counts <;> rfl
  | cons r rest ih =>
      intro counts e hno
      cases counts with
      | nil => rfl
      | cons c cs =>
          have h0 : applicableRetry r c e = false := hno 0 r c (by simp) (by simp)
          have htail : findRetry rest cs e = none :=
            ih cs e (fun j r' c' hj hc => hno (j + 1) r' c' (by simpa) (by simpa))
          simp [findRetry, h0, htail]

lemma findRetry_first : ∀ (rs : List RetryPolicy) (counts : List Nat)
    (e : ErrorId) (i : Nat) (r : RetryPolicy) (c : Nat),
    rs[i]? = some r → counts[i]? = some c → applicableRetry r c e = true →
    (∀ j, j < i → ∀ r' c', rs[j]? = some r' → counts[j]? = some c' →
      applicableRetry r' c' e = false) →
    findRetry rs counts e = some (i, r, c) := by
  intro rs
  induction rs with
  | nil => intro counts e i r c hr; simp at hr
  | cons r0 rest ih =>
      intro counts e i r c hr hc happ hfirst
      cases counts with
      | nil => simp at hc
      | cons c0 cs =>
          cases i with
          | zero =>
              simp at hr hc
              subst hr; subst hc
              simp [findRetry, happ]
          | succ i' =>
              have h0 : applicableRetry r0 c0 e = false :=
                hfirst 0 (Nat.succ_pos i') r0 c0 (by simp) (by simp)
              have htail : findRetry rest cs e = some (i', r, c) :=
                ih cs e i' r c (by simpa using hr) (by simpa using hc) happ
                  (fun j hj r' c' hj1 hj2 =>
                    hfirst (j + 1) (Nat.succ_lt_succ hj) r' c' (by simpa) (by simpa))
              simp [findRetry, h0, htail]

lemma findCatcher_noMatch (cs : List CatchPolicy) (e : ErrorId)
    (hno : ∀ c ∈ cs, matchesError c.errorEquals e = false) :
    findCatcher cs e = none := by
  simp only [findCatcher, List.find?_eq_none]
  intro c hc
  simp [hno c hc]

lemma findCatcher_first : ∀ (cs : List CatchPolicy) (e : ErrorId) (i : Nat)
    (c : CatchPolicy),
    cs[i]? = some c → matchesError c.errorEquals e = true →
    (∀ j, j < i → ∀ c', cs[j]? = some c' →
      matchesError c'.errorEquals e = false) →
    findCatcher cs e = some c := by
  intro cs
  induction cs with
  | nil => intro e i c hc; simp at hc
  | cons c0 rest ih =>
      intro e i c hc hm hfirst
      cases i with
      | zero =>
          simp at hc
          subst hc
          simp [findCatcher, List.find?_cons, hm]
      | succ i' =>
          have h0 : matchesError c0.errorEquals e = false :=
            hfirst 0 (Nat.succ_pos i') c0 (by simp)
          have htail : findCatcher rest e = some c :=
            ih e i' c (by simpa using hc) hm
              (fun j hj c' hj1 =>
                hfirst (j + 1) (Nat.succ_lt_succ hj) c' (by simpa))
          simpa [findCatcher, List.find?_cons, h0] using htail

/-- C1: for a failed Task attempt with error `e`, the Retry/Catch Policy
Engine retries via the first retrier in declared order that matches `e`
and still has attempts left (with its computed backoff delay); otherwise
it catches via the first catcher in declared order that matches `e`;
otherwise the error propagates, and a propagated error at the top level
terminates the execution FAILED with the original error identifier
preserved. -/
theorem retry_catch_policy_precedence :
    (∀ (rs : List RetryPolicy) (cs : List CatchPolicy) (counts : List Nat)
      (e : ErrorId) (i : Nat) (r : RetryPolicy) (c : Nat),
      rs[i]? = some r → counts[i]? = some c → applicableRetry r c e = true →
      (∀ j, j < i → ∀ r' c', rs[j]? = some r' → counts[j]? = some c' →
        applicableRetry r' c' e = false) →
      decidePolicy rs cs counts e = .retry i (retryDelay r c)) ∧
    (∀ (rs : List RetryPolicy) (cs : List CatchPolicy) (counts : List Nat)
      (e : ErrorId),
      (∀ (j : Nat) (r' : RetryPolicy) (c' : Nat), rs[j]? = some r' →
        counts[j]? = some c' → applicableRetry r' c' e = false) →
      ∀ (i : Nat) (c : CatchPolicy), cs[i]? = some c →
        matchesError c.errorEquals e = true →
        (∀ j, j < i → ∀ c', cs[j]? = some c' →
          matchesError c'.errorEquals e = false) →
        decidePolicy rs cs counts e = .catchTo c.resultPath c.next) ∧
    (∀ (rs : List RetryPolicy) (cs : List CatchPolicy) (counts : List Nat)
      (e : ErrorId),
      (∀ (j : Nat) (r' : RetryPolicy) (c' : Nat), rs[j]? = some r' →
        counts[j]? = some c' → applicableRetry r' c' e = false) →
      (∀ c ∈ cs, matchesError c.errorEquals e = false) →
      decidePolicy rs cs counts e = .propagate) ∧
    (∀ (h : Handlers) (deadline : Time) (ordFn : StateName → Nat → List Nat)
      (states : List (StateName × StateSpec)) (current : StateName)
      (payload : Json) (hist : List Event) (clock : Time) (fuel : Nat)
      (resource : String) (nxt : Option StateName) (rs : List RetryPolicy)
      (cs : List CatchPolicy) (e : ErrorId) (cause : String) (dur : Time),
      lookupState states current = some (.task resource nxt rs cs) →
      h resource 1 = .err e cause dur →
      ¬ deadline < clock + dur →
      decidePolicy rs cs (rs.map (fun _ => 0)) e = .propagate →
      runFrom h deadline ordFn states current payload hist clock (fuel + 1)
        = ⟨.failed, payload, hist ++ [⟨current, .entered, 0, none⟩],
            clock + dur, some (e, cause)⟩) := by
  refine ⟨?_, ?_, ?_, ?_⟩
  · intro rs cs counts e i r c hr hc happ hfirst
    simp [decidePolicy, findRetry_first rs counts e i r c hr hc happ hfirst]
  · intro rs cs counts e hnone i c hc hm hfirst
    simp [decidePolicy, findRetry_none rs counts e hnone,
      findCatcher_first cs e i c hc hm hfirst]
  · intro rs cs counts e hnone hcat
    simp [decidePolicy, findRetry_none rs counts e hnone,
      findCatcher_noMatch cs e hcat]
  · intro h deadline ordFn states current payload hist clock fuel resource
      nxt rs cs e cause dur hlook herr hnd hprop
    simp only [List.map_const'] at hprop
    simp [runFrom, interp, interpStep, hlook, runTask, herr, hnd, hprop,
      Out.asRun]

/-- Concrete instantiation of every part of the policy-precedence theorem:
one matching non-exhausted retrier, a catch after exhaustion, propagation
with no catcher, and a top-level propagation reaching FAILED. -/
theorem retry_catch_policy_precedence_witness :
    decidePolicy [⟨["States.ALL"], 3, 2, threeHalves⟩] [] [0] "Boom"
      = .retry 0 (retryDelay ⟨["States.ALL"], 3, 2, threeHalves⟩ 0) ∧
    decidePolicy [⟨["States.ALL"], 3, 2, threeHalves⟩]
      [⟨["States.ALL"], "$.error", "HandleError"⟩] [2] "Boom"
      = .catchTo "$.error" "HandleError" ∧
    decidePolicy [⟨["OtherError"], 3, 2, threeHalves⟩] [] [0] "Boom"
      = .propagate ∧
    runFrom (fun _ _ => .err "Boom" "cause" 0) 10 declOrd
      [("Only", .task "r" none [] [])] "Only" .null [] 0 3
      = ⟨.failed, .null, [⟨"Only", .entered, 0, none⟩], (0 : Time) + 0,
          some ("Boom", "cause")⟩ := by
  refine ⟨?_, ?_, ?_, ?_⟩
  · exact retry_catch_policy_precedence.1
      [⟨["States.ALL"], 3, 2, threeHalves⟩] [] [0] "Boom" 0
      ⟨["States.ALL"], 3, 2, threeHalves⟩ 0 (by simp) (by simp) (by decide)
      (fun j hj => absurd hj (Nat.not_lt_zero j))
  · exact retry_catch_policy_precedence.2.1
      [⟨["States.ALL"], 3, 2, threeHalves⟩]
      [⟨["States.ALL"], "$.error", "HandleError"⟩] [2] "Boom"
      (by intro j r' c' hj hc
          match j, hj, hc with
          | 0, hj, hc =>
              simp at hj hc
              subst hj; subst hc
              decide
          | j + 1, hj, _ => simp at hj)
      0 ⟨["States.ALL"], "$.error", "HandleError"⟩ (by simp) (by decide)
      (fun j hj => absurd hj (Nat.not_lt_zero j))
  · exact retry_catch_policy_precedence.2.2.1
      [⟨["OtherError"], 3, 2, threeHalves⟩] [] [0] "Boom"
      (by intro j r' c' hj hc
          match j, hj, hc with
          | 0, hj, hc =>
              simp at hj hc
              subst hj; subst hc
              decide
          | j + 1, hj, _ => simp at hj)
      (by intro c hc; simp at hc)
  · exact retry_catch_policy_precedence.2.2.2
      (fun _ _ => .err "Boom" "cause" 0) 10 declOrd
      [("Only", .task "r" none [] [])] "Only" .null [] 0 2 "r" none [] []
      "Boom" "cause" 0 (by rfl) (by rfl) (by decide) (by decide)

/-- C2: a Task with retry policy `{intervalSeconds: 3, maxAttempts: 2,
backoffRate: 1.5}` failing on attempts 1 and 2 and succeeding on attempt 3
appends exactly 2 RETRIED events, waits exactly 3 seconds before the
second attempt and 4.5 seconds before the third (no delay before the first
try: the final clock is exactly the 7.5 seconds of backoff), and the
execution terminates SUCCEEDED. -/
theorem retry_timing_scenario :
    retryDemoRun.status = .succeeded ∧
    (retryDemoRun.history.filter (fun ev => decide (ev.kind = .retried))).length
      = 2 ∧
    (retryDemoRun.history.filter (fun ev => decide (ev.kind = .retried))).map
      (fun ev => ev.delay) = [⟨3, 1⟩, ⟨9, 2⟩] ∧
    retryDemoRun.clock = ⟨15, 2⟩ := by
  refine ⟨by decide, by decide, by decide, by decide⟩

/-- C6: in the status transition relation every transition starts from
RUNNING, so the four terminal statuses are absorbing: the interpreter
never drives an execution record whose status is no longer RUNNING. -/
theorem terminal_status_absorbing :
    (∀ s t : Status, StatusStep s t → s = .running) ∧
    (∀ (h : Handlers) (deadline : Time) (ordFn : StateName → Nat → List Nat)
      (states : List (StateName × StateSpec)) (e : Execution) (fuel : Nat),
      e.status ≠ .running →
      resumeExecution h deadline ordFn states e fuel = e) := by
  constructor
  · intro s t hst
    cases hst <;> rfl
  · intro h deadline ordFn states e fuel hne
    simp [resumeExecution, hne]

/-- Concrete instantiation: a SUCCEEDED execution record is returned
unchanged by the interpreter, and RUNNING→SUCCEEDED starts from RUNNING. -/
theorem terminal_status_absorbing_witness :
    Status.running = .running ∧
    resumeExecution hangHandler 10 declOrd []
      ⟨.succeeded, "Done", .null, [], 0, none⟩ 5
      = ⟨.succeeded, "Done", .null, [], 0, none⟩ :=
  ⟨terminal_status_absorbing.1 .running .succeeded StatusStep.succeed,
   terminal_status_absorbing.2 hangHandler 10 declOrd []
     ⟨.succeeded, "Done", .null, [], 0, none⟩ 5 (by decide)⟩

/-- C9: in all three workflow definitions every top-level Task state's
catcher routes to the Pass state HandleError, which is terminal with the
static result `{status: "ERROR", message: "Workflow encountered an
error"}`; running from HandleError always terminates SUCCEEDED with
exactly that payload (for any handler, deadline, payload and clock), so a
caught top-level error never yields a FAILED execution and the original
error identifier is replaced by HandleError's static result — as the
concrete runs of all three workflows under an always-failing handler
show. -/
theorem handle_error_terminal_success :
    topCatchersTo naturalDisasterStates "HandleError" = true ∧
    topCatchersTo infrastructureFailureStates "HandleError" = true ∧
    topCatchersTo securityIncidentStates "HandleError" = true ∧
    lookupState naturalDisasterStates "HandleError"
      = some (.pass (some handleErrorResult) none) ∧
    lookupState infrastructureFailureStates "HandleError"
      = some (.pass (some handleErrorResult) none) ∧
    lookupState securityIncidentStates "HandleError"
      = some (.pass (some handleErrorResult) none) ∧
    (∀ (h : Handlers) (deadline : Time) (ordFn : StateName → Nat → List Nat)
      (payload : Json) (hist : List Event) (clock : Time) (fuel : Nat),
      runFrom h deadline ordFn naturalDisasterStates "HandleError"
        payload hist clock (fuel + 1)
        = ⟨.succeeded, handleErrorResult,
            hist ++ [⟨"HandleError", .entered, 0, none⟩]
              ++ [⟨"HandleError", .exited, 0, none⟩], clock, none⟩) ∧
    (∀ (h : Handlers) (deadline : Time) (ordFn : StateName → Nat → List Nat)
      (payload : Json) (hist : List Event) (clock : Time) (fuel : Nat),
      runFrom h deadline ordFn infrastructureFailureStates "HandleError"
        payload hist clock (fuel + 1)
        = ⟨.succeeded, handleErrorResult,
            hist ++ [⟨"HandleError", .entered, 0, none⟩]
              ++ [⟨"HandleError", .exited, 0, none⟩], clock, none⟩) ∧
    (∀ (h : Handlers) (deadline : Time) (ordFn : StateName → Nat → List Nat)
      (payload : Json) (hist : List Event) (clock : Time) (fuel : Nat),
      runFrom h deadline ordFn securityIncidentStates "HandleError"
        payload hist clock (fuel + 1)
        = ⟨.succeeded, handleErrorResult,
            hist ++ [⟨"HandleError", .entered, 0, none⟩]
              ++ [⟨"HandleError", .exited, 0, none⟩], clock, none⟩) ∧
    ndFailRun.status = .succeeded ∧ ndFailRun.payload = handleErrorResult ∧
    ndFailRun.errorInfo = none ∧
    infFailRun.status = .succeeded ∧ infFailRun.payload = handleErrorResult ∧
    infFailRun.errorInfo = none ∧
    secFailRun.status = .succeeded ∧ secFailRun.payload = handleErrorResult ∧
    secFailRun.errorInfo = none := by
  refine ⟨by decide, by decide, by decide, by rfl, by rfl, by rfl,
    ?_, ?_, ?_,
    by decide, by rfl, by decide, by decide, by rfl, by decide,
    by decide, by rfl, by decide⟩
  all_goals intro h deadline ordFn payload hist clock fuel
  all_goals rfl

/-- C10: the JSON embedding of the natural-disaster workflow declares the
ParallelResponse branches as [CoordinateEvacuation, AllocateResources,
AssessDamage], while the CDK StepFunctionsStack declares them as
[AllocateResources, AssessDamage, CoordinateEvacuation]; under the
declaration-order join rule the same per-branch results therefore join to
differently ordered output arrays, so the two embeddings are not
equivalent. -/
theorem embeddings_branch_order_disagree :
    parallelBranchNames naturalDisasterStates "ParallelResponse"
      = ["CoordinateEvacuation", "AllocateResources", "AssessDamage"] ∧
    cdkNaturalDisasterBranchNames
      = ["AllocateResources", "AssessDamage", "CoordinateEvacuation"] ∧
    parallelBranchNames naturalDisasterStates "ParallelResponse"
      ≠ cdkNaturalDisasterBranchNames ∧
    analyzeResults 0
      ((parallelBranchNames naturalDisasterStates "ParallelResponse").map
        (fun n => ⟨.succeeded, .str n, [], 0, none⟩))
      = .allSucceeded [.str "CoordinateEvacuation", .str "AllocateResources",
          .str "AssessDamage"] 0 ∧
    analyzeResults 0
      (cdkNaturalDisasterBranchNames.map
        (fun n => ⟨.succeeded, .str n, [], 0, none⟩))
      = .allSucceeded [.str "AllocateResources", .str "AssessDamage",
          .str "CoordinateEvacuation"] 0 ∧
    [Json.str "CoordinateEvacuation", .str "AllocateResources",
      .str "AssessDamage"]
      ≠ [Json.str "AllocateResources", .str "AssessDamage",
          .str "CoordinateEvacuation"] := by
  refine ⟨by decide, by decide, by decide, by rfl, by rfl, ?_⟩
  intro hcontra
  simp at hcontra

lemma getField_setField : ∀ (fields : List (String × Json)) (n : String)
    (v : Json), getField (.obj (setField fields n v)) n = some v := by
  intro fields
  induction fields with
  | nil => intro n v; simp [getField, setField]
  | cons p rest ih =>
      intro n v
      obtain ⟨k, w⟩ := p
      by_cases hk : k == n
      · simp [setField, hk, getField, List.find?_cons]
      · have := ih n v
        simp [getField] at this
        simp [setField, hk, getField, List.find?_cons, this]

lemma getField_mergeAtPath (rp : String) (v p : Json) :
    getField (mergeAtPath rp v p) (pathField rp) = some v := by
  cases p
  case obj fields =>
    simpa [mergeAtPath] using getField_setField fields (pathField rp) v
  all_goals simp [mergeAtPath, getField, List.find?_cons]

/-- C5: a Task with no matching retrier and a wildcard catcher with
resultPath `$.error` and next `Fallback` appends a CAUGHT event, merges the
error detail into the payload at `$.error`, transitions to `Fallback`, and
the execution does not terminate FAILED because of that error: the caught
error is recorded both in the history and in the payload at its
resultPath. -/
theorem catch_routing_records_error :
    (∀ (h : Handlers) (deadline : Time) (name resource : String)
      (rs : List RetryPolicy) (c : CatchPolicy) (payload : Json)
      (hist : List Event) (clock : Time) (counts : List Nat) (fuel : Nat)
      (e : ErrorId) (cause : String) (dur : Time),
      h resource 1 = .err e cause dur →
      (∀ r ∈ rs, matchesError r.errorEquals e = false) →
      "States.ALL" ∈ c.errorEquals →
      ¬ deadline < clock + dur →
      runTask h deadline name resource rs [c] payload hist clock counts 1
          (fuel + 1)
        = .goto c.next (mergeAtPath c.resultPath (errorDetail e cause) payload)
            (hist ++ [⟨name, .caught, 0, some e⟩]) (clock + dur)) ∧
    (∀ (h : Handlers) (deadline : Time) (ordFn : StateName → Nat → List Nat)
      (payload : Json) (clock : Time) (e : ErrorId) (cause : String)
      (dur : Time),
      h "fragile-resource" 1 = .err e cause dur →
      ¬ deadline < clock + dur →
      (runFrom h deadline ordFn fallbackDemoStates "FragileTask"
          payload [] clock 3).status = .succeeded ∧
      (runFrom h deadline ordFn fallbackDemoStates "FragileTask"
          payload [] clock 3).status ≠ .failed ∧
      getField (runFrom h deadline ordFn fallbackDemoStates "FragileTask"
          payload [] clock 3).payload "error" = some (errorDetail e cause) ∧
      ⟨"FragileTask", .caught, 0, some e⟩
        ∈ (runFrom h deadline ordFn fallbackDemoStates "FragileTask"
            payload [] clock 3).history ∧
      ⟨"Fallback", .entered, 0, none⟩
        ∈ (runFrom h deadline ordFn fallbackDemoStates "FragileTask"
            payload [] clock 3).history) := by
  constructor
  · intro h deadline name resource rs c payload hist clock counts fuel e
      cause dur herr hnomatch hwild hnd
    simp [runTask, herr, hnd, decidePolicy,
      findRetry_noMatch rs counts e hnomatch, findCatcher, List.find?_cons,
      wildcard_matches c.errorEquals e hwild]
  · intro h deadline ordFn payload clock e cause dur herr hnd
    have hrun : runFrom h deadline ordFn fallbackDemoStates "FragileTask"
        payload [] clock 3
        = ⟨.succeeded, mergeAtPath "$.error" (errorDetail e cause) payload,
            [⟨"FragileTask", .entered, 0, none⟩,
             ⟨"FragileTask", .caught, 0, some e⟩,
             ⟨"Fallback", .entered, 0, none⟩,
             ⟨"Fallback", .exited, 0, none⟩],
            clock + dur, none⟩ := by
      simp [runFrom, interp, interpStep, fallbackDemoStates, lookupState,
        runTask, herr, hnd, decidePolicy, findRetry, findCatcher,
        matchesError, Out.asRun]
    refine ⟨by rw [hrun], by rw [hrun]; simp, ?_, by rw [hrun]; simp,
      by rw [hrun]; simp⟩
    rw [hrun]
    simpa [pathField] using
      getField_mergeAtPath "$.error" (errorDetail e cause) payload

/-- Concrete instantiation of the catch-routing theorem: the error Kaboom
is caught by the wildcard catcher, recorded in the payload at `$.error`
and in the history, and the demo execution ends SUCCEEDED. -/
theorem catch_routing_records_error_witness :
    runTask (fun _ _ => .err "Kaboom" "cause-detail" 0) 10 "T"
        "fragile-resource" [] [⟨["States.ALL"], "$.error", "Fallback"⟩]
        .null [] 0 [] 1 1
      = .goto "Fallback"
          (mergeAtPath "$.error" (errorDetail "Kaboom" "cause-detail") .null)
          ([] ++ [⟨"T", .caught, 0, some "Kaboom"⟩]) ((0 : Time) + 0) ∧
    (runFrom (fun _ _ => .err "Kaboom" "cause-detail" 0) 10 declOrd
        fallbackDemoStates "FragileTask" .null [] 0 3).status = .succeeded ∧
    getField (runFrom (fun _ _ => .err "Kaboom" "cause-detail" 0) 10 declOrd
        fallbackDemoStates "FragileTask" .null [] 0 3).payload "error"
      = some (errorDetail "Kaboom" "cause-detail") := by
  refine ⟨?_, ?_, ?_⟩
  · exact catch_routing_records_error.1 (fun _ _ => .err "Kaboom" "cause-detail" 0)
      10 "T" "fragile-resource" [] ⟨["States.ALL"], "$.error", "Fallback"⟩
      .null [] 0 [] 0 "Kaboom" "cause-detail" 0 rfl
      (fun r hr => absurd hr (List.not_mem_nil r)) (by simp) (by decide)
  · exact (catch_routing_records_error.2 (fun _ _ => .err "Kaboom" "cause-detail" 0)
      10 declOrd .null 0 "Kaboom" "cause-detail" 0 rfl (by decide)).1
  · exact (catch_routing_records_error.2 (fun _ _ => .err "Kaboom" "cause-detail" 0)
      10 declOrd .null 0 "Kaboom" "cause-detail" 0 rfl (by decide)).2.2.1

lemma idxWhere_mem (p : RunResult → Bool) : ∀ (rl : List RunResult) (k : Nat)
    (x : RunResult), rl[k]? = some x → p x = true → k ∈ idxWhere p rl := by
  intro rl
  induction rl with
  | nil => intro k x hk; simp at hk
  | cons y ys ih =>
      intro k x hk hp
      cases k with
      | zero =>
          simp at hk
          subst hk
          simp [idxWhere, hp]
      | succ k' =>
          simp only [List.getElem?_cons_succ] at hk
          have hmem := ih k' x hk hp
          simp [idxWhere]
          exact hmem

lemma any_eq_false_of_forall (p : RunResult → Bool) (rl : List RunResult)
    (hall : ∀ x ∈ rl, p x = false) : rl.any p = false := by
  simp only [List.any_eq_false]
  intro x hx
  simp [hall x hx]

/-- C7: an execution whose deadline is exceeded while RUNNING — in
particular a Task invocation that never completes — never reaches
SUCCEEDED or FAILED: the deadline check at the suspension point forces
TIMED_OUT, and in a Parallel join every branch that was still running at
the deadline is recorded in the cancelled set, as the concrete hanging
parallel run shows. -/
theorem deadline_forces_timeout :
    (∀ (h : Handlers) (deadline : Time) (ordFn : StateName → Nat → List Nat)
      (states : List (StateName × StateSpec)) (current : StateName)
      (payload : Json) (hist : List Event) (clock : Time) (fuel : Nat)
      (resource : String) (nxt : Option StateName) (rs : List RetryPolicy)
      (cs : List CatchPolicy),
      lookupState states current = some (.task resource nxt rs cs) →
      h resource 1 = .hang →
      runFrom h deadline ordFn states current payload hist clock (fuel + 1)
          = ⟨.timedOut, payload, hist ++ [⟨current, .entered, 0, none⟩],
              deadline, none⟩ ∧
      (runFrom h deadline ordFn states current payload hist clock
          (fuel + 1)).status ≠ .succeeded ∧
      (runFrom h deadline ordFn states current payload hist clock
          (fuel + 1)).status ≠ .failed) ∧
    (∀ (fc : Time) (rl : List RunResult) (j : Nat) (r : RunResult),
      (∀ x ∈ rl, x.status ≠ .running) →
      rl[j]? = some r → r.status = .timedOut →
      ∃ cancelled, analyzeResults fc rl = .branchTimedOut cancelled ∧
        ∀ (k : Nat) (x : RunResult), rl[k]? = some x →
          x.status = .timedOut → k ∈ cancelled) ∧
    hangParRun.status = .timedOut ∧
    hangParRun.status ≠ .succeeded ∧ hangParRun.status ≠ .failed := by
  refine ⟨?_, ?_, by decide, by decide, by decide⟩
  · intro h deadline ordFn states current payload hist clock fuel resource
      nxt rs cs hlook hhang
    constructor
    · simp [runFrom, interp, interpStep, hlook, runTask, hhang, Out.asRun]
    · constructor <;>
        simp [runFrom, interp, interpStep, hlook, runTask, hhang, Out.asRun]
  · intro fc rl j r hterm hj hto
    have hnorun : rl.any (fun x => decide (x.status = .running)) = false :=
      any_eq_false_of_forall _ rl (fun x hx => by simp [hterm x hx])
    have hsome : rl.any (fun x => decide (x.status = .timedOut)) = true := by
      simp only [List.any_eq_true]
      exact ⟨r, List.getElem?_mem hj, by simp [hto]⟩
    refine ⟨idxWhere (fun x => decide (x.status = .timedOut)) rl, ?_, ?_⟩
    · simp [analyzeResults, hnorun, hsome]
    · intro k x hk hx
      exact idxWhere_mem _ rl k x hk (by simp [hx])

/-- Concrete instantiation of the timeout theorem: a hanging task forces
TIMED_OUT, and in the hanging parallel demo the branch that was still
running at the deadline is in the cancelled set of the join verdict. -/
theorem deadline_forces_timeout_witness :
    runFrom hangHandler 10 declOrd
        [("Only", .task "hanging-resource" none [] [])] "Only" .null [] 0 3
      = ⟨.timedOut, .null, [] ++ [⟨"Only", .entered, 0, none⟩], 10, none⟩ ∧
    (∃ cancelled,
      analyzeResults 0 [⟨.timedOut, .null, [], 10, none⟩,
        ⟨.succeeded, .null, [], 0, none⟩] = .branchTimedOut cancelled ∧
      ∀ (k : Nat) (x : RunResult),
        [(⟨.timedOut, .null, [], 10, none⟩ : RunResult),
          ⟨.succeeded, .null, [], 0, none⟩][k]? = some x →
        x.status = .timedOut → k ∈ cancelled) := by
  constructor
  · exact ((deadline_forces_timeout.1 hangHandler 10 declOrd
      [("Only", .task "hanging-resource" none [] [])] "Only" .null [] 0 2
      "hanging-resource" none [] [] rfl rfl).1)
  · exact deadline_forces_timeout.2.1 0
      [⟨.timedOut, .null, [], 10, none⟩, ⟨.succeeded, .null, [], 0, none⟩]
      0 ⟨.timedOut, .null, [], 10, none⟩
      (by intro x hx
          simp only [List.mem_cons, List.not_mem_nil, or_false] at hx
          rcases hx with hx | hx
          · subst hx; decide
          · subst hx; decide)
      (by simp) (by decide)

lemma firstWith_none (p : RunResult → Bool) : ∀ (rl : List RunResult),
    (∀ x ∈ rl, p x = false) → firstWith p rl = none := by
  intro rl
  induction rl with
  | nil => intro _; rfl
  | cons y ys ih =>
      intro hall
      simp [firstWith, hall y (by simp),
        ih (fun x hx => hall x (by simp [hx]))]

lemma firstWith_first (p : RunResult → Bool) : ∀ (rl : List RunResult)
    (i : Nat) (x : RunResult), rl[i]? = some x → p x = true →
    (∀ j, j < i → ∀ y, rl[j]? = some y → p y = false) →
    firstWith p rl = some (i, x) := by
  intro rl
  induction rl with
  | nil => intro i x hx; simp at hx
  | cons y ys ih =>
      intro i x hx hp hfirst
      cases i with
      | zero =>
          simp at hx
          subst hx
          simp [firstWith, hp]
      | succ i' =>
          have h0 : p y = false := hfirst 0 (Nat.succ_pos i') y (by simp)
          have htail : firstWith p ys = some (i', x) :=
            ih i' x (by simpa using hx) hp
              (fun j hj y' hy' =>
                hfirst (j + 1) (Nat.succ_lt_succ hj) y' (by simpa))
          simp [firstWith, h0, htail]

/-- C4: when at least one branch of a Parallel state fails after exhausting
its own policy, the join reports the error of the first failing branch in
declaration order (even when several fail), records every sibling still in
flight at the first failure time in the cancelled set, and the results of
succeeded siblings are discarded from the final payload — as the concrete
three-branch run (middle branch failing) shows: the Parallel state fails
with that branch's error while the final payload is the unchanged input. -/
theorem parallel_first_failure_reported :
    (∀ (fc : Time) (rl : List RunResult) (fi : Nat) (fr : RunResult),
      (∀ x ∈ rl, x.status ≠ .running) →
      (∀ x ∈ rl, x.status ≠ .timedOut) →
      rl[fi]? = some fr → fr.status = .failed →
      (∀ j, j < fi → ∀ x, rl[j]? = some x → x.status ≠ .failed) →
      ∃ cancelled,
        analyzeResults fc rl = .branchFailed fi
          ((fr.errorInfo.getD ("States.BranchFailed", "branch failed")).1)
          ((fr.errorInfo.getD ("States.BranchFailed", "branch failed")).2)
          (failClockOf rl) cancelled ∧
        (∀ (k : Nat) (x : RunResult), rl[k]? = some x → x.status ≠ .failed →
          failClockOf rl < x.clock → k ∈ cancelled)) ∧
    parFailRun.status = .failed ∧
    parFailRun.errorInfo = some ("States.Crash", "branch b crashed") ∧
    parFailRun.payload = .null := by
  refine ⟨?_, by decide, by decide, by rfl⟩
  intro fc rl fi fr hnorun hnoto hfi hfail hfirst
  have hany : rl.any (fun x => decide (x.status = .running)) = false :=
    any_eq_false_of_forall _ rl (fun x hx => by simp [hnorun x hx])
  have hanyto : rl.any (fun x => decide (x.status = .timedOut)) = false :=
    any_eq_false_of_forall _ rl (fun x hx => by simp [hnoto x hx])
  have hfw : firstWith (fun x => decide (x.status = .failed)) rl
      = some (fi, fr) :=
    firstWith_first _ rl fi fr hfi (by simp [hfail])
      (fun j hj y hy => by simp [hfirst j hj y hy])
  refine ⟨idxWhere
      (fun x => decide (x.status ≠ .failed)
        && decide (failClockOf rl < x.clock)) rl, ?_, ?_⟩
  · simp [analyzeResults, hany, hanyto, hfw]
  · intro k x hk hnx hclock
    exact idxWhere_mem _ rl k x hk (by simp [hnx, hclock])

/-- Concrete instantiation of the parallel-failure theorem: with results
[succeeded at 0, failed at 1 with States.Crash, succeeded at 2], the
verdict reports branch 1's error, and branch 2 (still in flight at the
failure time 1) is in the cancelled set. -/
theorem parallel_first_failure_reported_witness :
    ∃ cancelled,
      analyzeResults 0
        [⟨.succeeded, .str "a", [], 0, none⟩,
         ⟨.failed, .null, [], ⟨1, 1⟩, some ("States.Crash", "boom")⟩,
         ⟨.succeeded, .str "c", [], ⟨2, 1⟩, none⟩]
        = .branchFailed 1 "States.Crash" "boom"
            (failClockOf
              [⟨.succeeded, .str "a", [], 0, none⟩,
               ⟨.failed, .null, [], ⟨1, 1⟩, some ("States.Crash", "boom")⟩,
               ⟨.succeeded, .str "c", [], ⟨2, 1⟩, none⟩]) cancelled ∧
      (∀ (k : Nat) (x : RunResult),
        [(⟨.succeeded, .str "a", [], 0, none⟩ : RunResult),
         ⟨.failed, .null, [], ⟨1, 1⟩, some ("States.Crash", "boom")⟩,
         ⟨.succeeded, .str "c", [], ⟨2, 1⟩, none⟩][k]? = some x →
        x.status ≠ .failed → failClockOf
          [⟨.succeeded, .str "a", [], 0, none⟩,
           ⟨.failed, .null, [], ⟨1, 1⟩, some ("States.Crash", "boom")⟩,
           ⟨.succeeded, .str "c", [], ⟨2, 1⟩, none⟩] < x.clock →
        k ∈ cancelled) :=
  parallel_first_failure_reported.1 0
    [⟨.succeeded, .str "a", [], 0, none⟩,
     ⟨.failed, .null, [], ⟨1, 1⟩, some ("States.Crash", "boom")⟩,
     ⟨.succeeded, .str "c", [], ⟨2, 1⟩, none⟩]
    1 ⟨.failed, .null, [], ⟨1, 1⟩, some ("States.Crash", "boom")⟩
    (by intro x hx
        simp only [List.mem_cons, List.not_mem_nil, or_false] at hx
        rcases hx with hx | hx | hx
        · subst hx; decide
        · subst hx; decide
        · subst hx; decide)
    (by intro x hx
        simp only [List.mem_cons, List.not_mem_nil, or_false] at hx
        rcases hx with hx | hx | hx
        · subst hx; decide
        · subst hx; decide
        · subst hx; decide)
    (by simp) (by decide)
    (by intro j hj x hx
        match j, hj with
        | 0, _ =>
            simp at hx
            subst hx
            decide)

lemma resultAt_runBranches (h : Handlers) (deadline : Time)
    (ordFn : StateName → Nat → List Nat) (branches : List Branch)
    (payload : Json) (clock : Time) (fuel : Nat) :
    ∀ (order : List Nat) (i : Nat), i ∈ order → i < branches.length →
    resultAt (runBranches h deadline ordFn branches order payload clock fuel) i
      = branchRun h deadline ordFn (branches.getD i ("", []))
          payload clock fuel := by
  intro order
  induction order with
  | nil => intro i hi; simp at hi
  | cons j rest ih =>
      intro i hi hlen
      cases hbj : branches[j]? with
      | none =>
          have hij : i ≠ j := by
            intro hcontra
            subst hcontra
            rw [List.getElem?_eq_none_iff] at hbj
            omega
          have hmem : i ∈ rest := by
            rcases List.mem_cons.mp hi with hc | hc
            · exact absurd hc hij
            · exact hc
          simpa [runBranches, List.filterMap_cons, hbj] using
            ih i hmem hlen
      | some b =>
          by_cases hij : j = i
          · subst hij
            have hgd : branches.getD j ("", []) = b := by
              simp [List.getD_eq_getElem?_getD, hbj]
            simp [runBranches, List.filterMap_cons, hbj, resultAt,
              List.find?_cons, hgd]
          · have hmem : i ∈ rest := by
              rcases List.mem_cons.mp hi with hc | hc
              · exact absurd hc.symm hij
              · exact hc
            have hne : (j == i) = false := by
              simp [hij]
            have := ih i hmem hlen
            simp only [runBranches, List.filterMap_cons, hbj] at this ⊢
            simpa [resultAt, List.find?_cons, hne] using this

/-- C3: for every Parallel state whose branches all reach SUCCEEDED and for
every completion order (permutation of the declaration indices), the join
verdict is independent of the completion order and its payload sequence is
the branch outputs index-aligned to declaration order — concretely,
branches declared [A, B, C] completing in order C, A, B still join to
[resultA, resultB, resultC]. -/
theorem parallel_join_declaration_order :
    (∀ (h : Handlers) (deadline : Time) (ordFn : StateName → Nat → List Nat)
      (branches : List Branch) (order : List Nat) (payload : Json)
      (clock : Time) (fuel : Nat) (fc : Time),
      order.Perm (List.range branches.length) →
      (∀ i, i < branches.length →
        (branchRun h deadline ordFn (branches.getD i ("", [])) payload clock
          fuel).status = .succeeded) →
      analyzeJoin fc branches.length
          (runBranches h deadline ordFn branches order payload clock fuel)
        = analyzeJoin fc branches.length
            (runBranches h deadline ordFn branches
              (List.range branches.length) payload clock fuel) ∧
      ∃ joinClock,
        analyzeJoin fc branches.length
            (runBranches h deadline ordFn branches order payload clock fuel)
          = .allSucceeded
              ((List.range branches.length).map (fun i =>
                (branchRun h deadline ordFn (branches.getD i ("", []))
                  payload clock fuel).payload)) joinClock) ∧
    analyzeJoin 0 3
        (runBranches hangHandler 10 declOrd joinDemoBranches [2, 0, 1]
          .null 0 2)
      = .allSucceeded [.str "resultA", .str "resultB", .str "resultC"] 0 := by
  constructor
  · intro h deadline ordFn branches order payload clock fuel fc hperm hsucc
    have hpt : ∀ i, i < branches.length →
        resultAt (runBranches h deadline ordFn branches order payload clock
          fuel) i
          = branchRun h deadline ordFn (branches.getD i ("", []))
              payload clock fuel :=
      fun i hi =>
        resultAt_runBranches h deadline ordFn branches payload clock fuel
          order i (hperm.mem_iff.mpr (List.mem_range.mpr hi)) hi
    have hpt' : ∀ i, i < branches.length →
        resultAt (runBranches h deadline ordFn branches
          (List.range branches.length) payload clock fuel) i
          = branchRun h deadline ordFn (branches.getD i ("", []))
              payload clock fuel :=
      fun i hi =>
        resultAt_runBranches h deadline ordFn branches payload clock fuel
          (List.range branches.length) i (List.mem_range.mpr hi) hi
    have hmap : (List.range branches.length).map (fun i =>
        resultAt (runBranches h deadline ordFn branches order payload clock
          fuel) i)
        = (List.range branches.length).map (fun i =>
            branchRun h deadline ordFn (branches.getD i ("", []))
              payload clock fuel) :=
      List.map_congr_left (fun i hi => hpt i (List.mem_range.mp hi))
    have hmap' : (List.range branches.length).map (fun i =>
        resultAt (runBranches h deadline ordFn branches
          (List.range branches.length) payload clock fuel) i)
        = (List.range branches.length).map (fun i =>
            branchRun h deadline ordFn (branches.getD i ("", []))
              payload clock fuel) :=
      List.map_congr_left (fun i hi => hpt' i (List.mem_range.mp hi))
    have hall : ∀ x ∈ (List.range branches.length).map (fun i =>
        branchRun h deadline ordFn (branches.getD i ("", []))
          payload clock fuel), x.status = .succeeded := by
      intro x hx
      rcases List.mem_map.mp hx with ⟨i, hi, hxi⟩
      rw [← hxi]
      exact hsucc i (List.mem_range.mp hi)
    have hany : ((List.range branches.length).map (fun i =>
        branchRun h deadline ordFn (branches.getD i ("", []))
          payload clock fuel)).any
          (fun x => decide (x.status = .running)) = false :=
      any_eq_false_of_forall _ _ (fun x hx => by simp [hall x hx])
    have hanyto : ((List.range branches.length).map (fun i =>
        branchRun h deadline ordFn (branches.getD i ("", []))
          payload clock fuel)).any
          (fun x => decide (x.status = .timedOut)) = false :=
      any_eq_false_of_forall _ _ (fun x hx => by simp [hall x hx])
    have hfw : firstWith (fun x => decide (x.status = .failed))
        ((List.range branches.length).map (fun i =>
          branchRun h deadline ordFn (branches.getD i ("", []))
            payload clock fuel)) = none :=
      firstWith_none _ _ (fun x hx => by simp [hall x hx])
    constructor
    · simp only [analyzeJoin]
      rw [hmap, hmap']
    · refine ⟨((List.range branches.length).map (fun i =>
        branchRun h deadline ordFn (branches.getD i ("", []))
          payload clock fuel)).foldl (fun acc r => Time.max acc r.clock) fc,
        ?_⟩
      simp only [analyzeJoin]
      rw [hmap]
      simp only [analyzeResults, hany, hanyto, hfw, Bool.false_eq_true,
        if_false, List.map_map]
      rfl
  · rfl

/-- Concrete instantiation of the join-ordering theorem: the demo branches
[A, B, C] completing in the order C, A, B still join to
[resultA, resultB, resultC]. -/
theorem parallel_join_declaration_order_witness :
    analyzeJoin 0 3
        (runBranches hangHandler 10 declOrd joinDemoBranches [2, 0, 1]
          .null 0 2)
      = analyzeJoin 0 3
          (runBranches hangHandler 10 declOrd joinDemoBranches
            (List.range 3) .null 0 2) ∧
    ∃ joinClock,
      analyzeJoin 0 3
          (runBranches hangHandler 10 declOrd joinDemoBranches [2, 0, 1]
            .null 0 2)
        = .allSucceeded
            ((List.range 3).map (fun i =>
              (branchRun hangHandler 10 declOrd
                (joinDemoBranches.getD i ("", [])) .null 0 2).payload))
            joinClock :=
  (parallel_join_declaration_order.1 hangHandler 10 declOrd joinDemoBranches
    [2, 0, 1] .null 0 2 0 (by decide)
    (by intro i hi
        match i, hi with
        | 0, _ => decide
        | 1, _ => decide
        | 2, _ => decide))

lemma stateViolations_dangling (names : List StateName) (name : StateName)
    (s : StateSpec) (t : StateName) (hnext : nextTarget s = some t)
    (hc : names.contains t = false) :
    Violation.danglingNext name t ∈ stateViolations names name s := by
  have hnin : t ∉ names := by simpa using hc
  cases s with
  | task r nx rs cs =>
      simp only [nextTarget] at hnext
      subst hnext
      simp [stateViolations, danglingNextOf, hc]
      exact Or.inl hnin
  | parallel bs nx rs cs =>
      simp only [nextTarget] at hnext
      subst hnext
      simp [stateViolations, danglingNextOf, hc]
      exact Or.inl hnin
  | pass res nx =>
      simp only [nextTarget] at hnext
      subst hnext
      simp [stateViolations, danglingNextOf, hc]
      exact hnin
  | succeed => simp [nextTarget] at hnext
  | fail m => simp [nextTarget] at hnext

lemma mem_statesViolations (names : List StateName) :
    ∀ (states : List (StateName × StateSpec)) (name : StateName)
      (s : StateSpec) (v : Violation),
    (name, s) ∈ states → v ∈ stateViolations names name s →
    v ∈ statesViolations names states := by
  intro states
  induction states with
  | nil => intro name s v hmem; simp at hmem
  | cons p rest ih =>
      intro name s v hmem hv
      rcases List.mem_cons.mp hmem with hc | hc
      · obtain ⟨pn, ps⟩ := p
        simp only [Prod.mk.injEq] at hc
        obtain ⟨h1, h2⟩ := hc
        subst h1; subst h2
        simp only [statesViolations, List.mem_append]
        exact Or.inl hv
      · simp only [statesViolations, List.mem_append]
        exact Or.inr (ih name s v hc hv)

/-- C8: the Definition Validator is a pure function (validating twice
yields identical results); a definition containing a state whose `next`
names a state absent from the mapping always fails validation with a
ValidationError containing a violation naming that state; and the error
lists every such violation found, not only the first (the membership holds
simultaneously for every dangling reference of the definition). -/
theorem validator_pure_and_names_dangling :
    (∀ wf : WorkflowDefinition, validate wf = validate wf) ∧
    (∀ (wf : WorkflowDefinition) (name : StateName) (s : StateSpec)
      (t : StateName),
      (name, s) ∈ wf.states → nextTarget s = some t →
      (wf.states.map Prod.fst).contains t = false →
      Violation.danglingNext name t ∈ defViolations wf.startAt wf.states ∧
      ∃ err, validate wf = some err ∧
        Violation.danglingNext name t ∈ err.reasons) := by
  constructor
  · intro wf; rfl
  · intro wf name s t hmem hnext hc
    have hsv : Violation.danglingNext name t
        ∈ stateViolations (wf.states.map Prod.fst) name s :=
      stateViolations_dangling _ name s t hnext hc
    have hmemdef : Violation.danglingNext name t
        ∈ defViolations wf.startAt wf.states := by
      simp only [defViolations, List.mem_append]
      exact Or.inl (Or.inr (mem_statesViolations _ wf.states name s _ hmem hsv))
    refine ⟨hmemdef, ?_⟩
    rcases hsplit : defViolations wf.startAt wf.states with _ | ⟨v0, vs⟩
    · rw [hsplit] at hmemdef
      simp at hmemdef
    · refine ⟨⟨v0 :: vs⟩, ?_, ?_⟩
      · simp [validate, hsplit]
      · rw [hsplit] at hmemdef
        exact hmemdef

/-- A definition with two dangling `next` references, used to instantiate
the validator theorem: both violations are listed in the single returned
ValidationError. -/
def danglingDemo : WorkflowDefinition :=
  ⟨"A", [("A", .pass none (some "B")), ("Second", .pass none (some "Ghost"))]⟩

/-- Concrete instantiation of the validator theorem: validation of the
dangling demo is self-identical, and each of its two dangling references
yields a ValidationError containing the violation naming the missing
state. -/
theorem validator_pure_and_names_dangling_witness :
    (validate danglingDemo = validate danglingDemo) ∧
    (Violation.danglingNext "A" "B"
        ∈ defViolations danglingDemo.startAt danglingDemo.states ∧
      ∃ err, validate danglingDemo = some err ∧
        Violation.danglingNext "A" "B" ∈ err.reasons) ∧
    (Violation.danglingNext "Second" "Ghost"
        ∈ defViolations danglingDemo.startAt danglingDemo.states ∧
      ∃ err, validate danglingDemo = some err ∧
        Violation.danglingNext "Second" "Ghost" ∈ err.reasons) :=
  ⟨validator_pure_and_names_dangling.1 danglingDemo,
   validator_pure_and_names_dangling.2 danglingDemo "A"
     (.pass none (some "B")) "B" (by simp [danglingDemo]) rfl (by decide),
   validator_pure_and_names_dangling.2 danglingDemo "Second"
     (.pass none (some "Ghost")) "Ghost" (by simp [danglingDemo]) rfl
     (by decide)⟩
